import Mathlib

/-!
# MyFPS camera (`src/camera.h`)

A shallow embedding of the `Camera` class of `src/camera.h` and the properties
of its operations.

Conventions of the embedding.

* C++ `float` is modelled by an arbitrary linearly ordered field `K`
  (exact arithmetic).  Every definition is computable for a computable `K`
  such as `ℚ`.  The properties proved are those that do not rest on the
  exactness of the arithmetic: copies between snapshots, frame conditions,
  comparisons and clamps, and the formulas the operations evaluate.
  Properties decided by the rounding of binary32 arithmetic or of the
  library functions are outside this development.
* The scalar library functions the class calls (`cos`, `sin`, `glm::radians`,
  and `glm::inversesqrt`, which `glm::normalize` uses) are not part of the
  repository; they are the fields of a record `Glm K` that every operation
  calling them takes as a parameter.
* `glm::vec3` and its operators are embedded component by component.
* A member function `void f(args)` becomes `f : Camera K → args → Camera K`.
-/

namespace MyFPS

/-- The embedding of `glm::vec3`. -/
@[ext]
structure Vec3 (K : Type) where
  x : K
  y : K
  z : K
deriving DecidableEq

namespace Vec3

variable {K : Type}

/-- Component-wise `operator+` of `glm::vec3`. -/
def add [Add K] (a b : Vec3 K) : Vec3 K := ⟨a.x + b.x, a.y + b.y, a.z + b.z⟩

/-- Component-wise `operator-` of `glm::vec3`. -/
def sub [Sub K] (a b : Vec3 K) : Vec3 K := ⟨a.x - b.x, a.y - b.y, a.z - b.z⟩

/-- The product `v * s` of a `glm::vec3` with a scalar. -/
def scale [Mul K] (a : Vec3 K) (s : K) : Vec3 K := ⟨a.x * s, a.y * s, a.z * s⟩

/-- The function `glm::dot` on `vec3`. -/
def dot [Add K] [Mul K] (a b : Vec3 K) : K := a.x * b.x + a.y * b.y + a.z * b.z

/-- The function `glm::cross`:
`(x.y * y.z - y.y * x.z, x.z * y.x - y.z * x.x, x.x * y.y - y.x * x.y)`. -/
def cross [Sub K] [Mul K] (a b : Vec3 K) : Vec3 K :=
  ⟨a.y * b.z - b.y * a.z, a.z * b.x - b.z * a.x, a.x * b.y - b.x * a.y⟩

end Vec3

/-- The scalar library functions used by `camera.h`, taken as parameters:
`cos` and `sin` of `<cmath>`, `glm::radians` and `glm::inversesqrt`. -/
structure Glm (K : Type) where
  cos : K → K
  sin : K → K
  radians : K → K
  inversesqrt : K → K

/-- The function `glm::normalize`, which is `v * inversesqrt(dot(v, v))`. -/
def normalize {K : Type} [Add K] [Mul K] (G : Glm K) (v : Vec3 K) : Vec3 K :=
  v.scale (G.inversesqrt (v.dot v))

/-- The enumeration `Camera_Movement`. -/
inductive Camera_Movement where
  | FORWARD
  | BACKWARD
  | LEFT
  | RIGHT
  | UP
deriving DecidableEq

/-- The data members of `class Camera`, in the order of their declaration. -/
@[ext]
structure Camera (K : Type) where
  Position : Vec3 K
  FirstPosition : Vec3 K
  Front : Vec3 K
  FirstFront : Vec3 K
  PrevFront : Vec3 K
  Up : Vec3 K
  FirstUp : Vec3 K
  PrevUp : Vec3 K
  Right : Vec3 K
  FirstRight : Vec3 K
  PrevRight : Vec3 K
  WorldUp : Vec3 K
  Yaw : K
  FirstYaw : K
  PrevYaw : K
  Pitch : K
  FirstPitch : K
  PrevPitch : K
  MovementSpeed : K
  MouseSensitivity : K
  Zoom : K
  MouseTriggered : Bool
deriving DecidableEq

section Operations

variable {K : Type} [LinearOrderedField K]

/-- The constant `YAW = -90.0f`. -/
def YAW : K := -90
/-- The constant `PITCH = 0.0f`. -/
def PITCH : K := 0
/-- The constant `SPEED = 2.5f`. -/
def SPEED : K := 5 / 2
/-- The constant `SENSITIVITY = 0.1f`. -/
def SENSITIVITY : K := 1 / 10
/-- The constant `ZOOM = 45.0f`. -/
def ZOOM : K := 45

/-- The private member `Camera::updateCameraVectors`. -/
def updateCameraVectors (G : Glm K) (c : Camera K) : Camera K :=
  let front : Vec3 K :=
    ⟨G.cos (G.radians c.Yaw) * G.cos (G.radians c.Pitch),
     G.sin (G.radians c.Pitch),
     G.sin (G.radians c.Yaw) * G.cos (G.radians c.Pitch)⟩
  let c1 : Camera K := { c with Front := normalize G front }
  let c2 : Camera K := { c1 with Right := normalize G (c1.Front.cross c1.WorldUp) }
  { c2 with Up := normalize G (c2.Right.cross c2.Front) }

/-- The private member `Camera::storePrevCameraVectors`. -/
def storePrevCameraVectors (c : Camera K) : Camera K :=
  { c with
    PrevYaw := c.Yaw
    PrevPitch := c.Pitch
    PrevFront := c.Front
    PrevUp := c.Up
    PrevRight := c.Right }

/-- The private member `Camera::storeFirstCameraVectors`. -/
def storeFirstCameraVectors (c : Camera K) : Camera K :=
  { c with
    FirstYaw := c.Yaw
    FirstPitch := c.Pitch
    FirstFront := c.Front
    FirstUp := c.Up
    FirstRight := c.Right
    FirstPosition := c.Position }

/-- The member `Camera::loadPrevCameraVectors`. -/
def loadPrevCameraVectors (c : Camera K) : Camera K :=
  { c with
    Yaw := c.PrevYaw
    Pitch := c.PrevPitch
    Front := c.PrevFront
    Up := c.PrevUp
    Right := c.PrevRight }

/-- The member `Camera::loadFirstCameraVectors`. -/
def loadFirstCameraVectors (c : Camera K) : Camera K :=
  storePrevCameraVectors
    { c with
      Yaw := c.FirstYaw
      Pitch := c.FirstPitch
      Front := c.FirstFront
      Up := c.FirstUp
      Right := c.FirstRight
      Position := c.FirstPosition }

/-- The constructor with vectors, `Camera::Camera(position, up, yaw, pitch)`.
The member initialisers set `Front`, `MovementSpeed`, `MouseSensitivity` and
`Zoom`; the body sets `Position`, `WorldUp`, `Yaw`, `Pitch`, `MouseTriggered`
and then calls `updateCameraVectors`, `storePrevCameraVectors` and
`storeFirstCameraVectors`.  The members the C++ leaves uninitialised before
those calls (`Up`, `Right` and the two snapshots) are all overwritten by them
before any read; they start at zero here. -/
def Camera.new (G : Glm K) (position up : Vec3 K) (yaw pitch : K) : Camera K :=
  let c0 : Camera K :=
    { Position := position
      FirstPosition := ⟨0, 0, 0⟩
      Front := ⟨0, 0, -1⟩
      FirstFront := ⟨0, 0, 0⟩
      PrevFront := ⟨0, 0, 0⟩
      Up := ⟨0, 0, 0⟩
      FirstUp := ⟨0, 0, 0⟩
      PrevUp := ⟨0, 0, 0⟩
      Right := ⟨0, 0, 0⟩
      FirstRight := ⟨0, 0, 0⟩
      PrevRight := ⟨0, 0, 0⟩
      WorldUp := up
      Yaw := yaw
      FirstYaw := 0
      PrevYaw := 0
      Pitch := pitch
      FirstPitch := 0
      PrevPitch := 0
      MovementSpeed := SPEED
      MouseSensitivity := SENSITIVITY
      Zoom := ZOOM
      MouseTriggered := true }
  storeFirstCameraVectors (storePrevCameraVectors (updateCameraVectors G c0))

/-- The constructor with scalar values,
`Camera::Camera(posX, posY, posZ, upX, upY, upZ, yaw, pitch)`. -/
def Camera.newScalars (G : Glm K) (posX posY posZ upX upY upZ yaw pitch : K) : Camera K :=
  let c0 : Camera K :=
    { Position := ⟨posX, posY, posZ⟩
      FirstPosition := ⟨0, 0, 0⟩
      Front := ⟨0, 0, -1⟩
      FirstFront := ⟨0, 0, 0⟩
      PrevFront := ⟨0, 0, 0⟩
      Up := ⟨0, 0, 0⟩
      FirstUp := ⟨0, 0, 0⟩
      PrevUp := ⟨0, 0, 0⟩
      Right := ⟨0, 0, 0⟩
      FirstRight := ⟨0, 0, 0⟩
      PrevRight := ⟨0, 0, 0⟩
      WorldUp := ⟨upX, upY, upZ⟩
      Yaw := yaw
      FirstYaw := 0
      PrevYaw := 0
      Pitch := pitch
      FirstPitch := 0
      PrevPitch := 0
      MovementSpeed := SPEED
      MouseSensitivity := SENSITIVITY
      Zoom := ZOOM
      MouseTriggered := true }
  storeFirstCameraVectors (storePrevCameraVectors (updateCameraVectors G c0))

/-- The member `Camera::ProcessKeyboard`: five consecutive `if` statements on
`direction`, each updating `Position`. -/
def ProcessKeyboard (c : Camera K) (direction : Camera_Movement) (deltaTime : K) : Camera K :=
  let velocity := c.MovementSpeed * deltaTime
  let c1 : Camera K :=
    if direction = Camera_Movement.FORWARD then
      { c with Position := c.Position.add (c.Front.scale velocity) }
    else c
  let c2 : Camera K :=
    if direction = Camera_Movement.BACKWARD then
      { c1 with Position := c1.Position.sub (c1.Front.scale velocity) }
    else c1
  let c3 : Camera K :=
    if direction = Camera_Movement.LEFT then
      { c2 with Position := c2.Position.sub (c2.Right.scale velocity) }
    else c2
  let c4 : Camera K :=
    if direction = Camera_Movement.RIGHT then
      { c3 with Position := c3.Position.add (c3.Right.scale velocity) }
    else c3
  if direction = Camera_Movement.UP then
    { c4 with Position := c4.Position.add (c4.WorldUp.scale velocity) }
  else c4

/-- The pitch constraint of `ProcessMouseMovement`:
`if (Pitch > 89.0f) Pitch = 89.0f; if (Pitch < -89.0f) Pitch = -89.0f;`. -/
def constrain (c : Camera K) : Camera K :=
  let c1 : Camera K := if c.Pitch > 89 then { c with Pitch := 89 } else c
  if c1.Pitch < -89 then { c1 with Pitch := -89 } else c1

/-- The member `Camera::ProcessMouseMovement(xoffset, yoffset, type, constrainPitch)`.
The C++ parameter `constrainPitch` is a `GLboolean` with default value `true`. -/
def ProcessMouseMovement (G : Glm K) (c : Camera K) (xoffset yoffset : K) (type : Int)
    (constrainPitch : Bool) : Camera K :=
  if c.MouseTriggered = false then c
  else if type = 3 then loadPrevCameraVectors c
  else
    let xoffset := xoffset * c.MouseSensitivity
    let yoffset := yoffset * c.MouseSensitivity
    let c1 : Camera K := { c with Yaw := c.Yaw + xoffset }
    let c2 : Camera K := { c1 with Pitch := c1.Pitch + yoffset }
    let c3 : Camera K := if constrainPitch then constrain c2 else c2
    let c4 : Camera K := updateCameraVectors G c3
    if type = 1 then storePrevCameraVectors c4 else c4

/-- The member `Camera::ProcessMouseScroll`. -/
def ProcessMouseScroll (c : Camera K) (yoffset : K) : Camera K :=
  let c1 : Camera K := { c with Zoom := c.Zoom - yoffset }
  let c2 : Camera K := if c1.Zoom < 1 then { c1 with Zoom := 1 } else c1
  if c2.Zoom > 45 then { c2 with Zoom := 45 } else c2

/-- The current orientation of the camera: `(Yaw, Pitch, Front, Right, Up)`. -/
def Camera.orientation (c : Camera K) : K × K × Vec3 K × Vec3 K × Vec3 K :=
  (c.Yaw, c.Pitch, c.Front, c.Right, c.Up)

/-- The previous snapshot: `(PrevYaw, PrevPitch, PrevFront, PrevRight, PrevUp)`. -/
def Camera.prevSnapshot (c : Camera K) : K × K × Vec3 K × Vec3 K × Vec3 K :=
  (c.PrevYaw, c.PrevPitch, c.PrevFront, c.PrevRight, c.PrevUp)

/-- The orientation part of the initial snapshot:
`(FirstYaw, FirstPitch, FirstFront, FirstRight, FirstUp)`. -/
def Camera.firstSnapshot (c : Camera K) : K × K × Vec3 K × Vec3 K × Vec3 K :=
  (c.FirstYaw, c.FirstPitch, c.FirstFront, c.FirstRight, c.FirstUp)

/-- One call of a public operation of the camera, with its arguments. -/
inductive Op (K : Type) where
  | keyboard (direction : Camera_Movement) (deltaTime : K)
  | mouse (xoffset yoffset : K) (type : Int) (constrainPitch : Bool)
  | scroll (yoffset : K)
  | loadPrev
  | loadFirst

/-- The effect of one call on the camera. -/
def Op.apply (G : Glm K) (c : Camera K) : Op K → Camera K
  | Op.keyboard direction deltaTime => ProcessKeyboard c direction deltaTime
  | Op.mouse xoffset yoffset type constrainPitch =>
      ProcessMouseMovement G c xoffset yoffset type constrainPitch
  | Op.scroll yoffset => ProcessMouseScroll c yoffset
  | Op.loadPrev => loadPrevCameraVectors c
  | Op.loadFirst => loadFirstCameraVectors c

/-- The effect of a sequence of calls, first call first. -/
def run (G : Glm K) (c : Camera K) (ops : List (Op K)) : Camera K :=
  ops.foldl (Op.apply G) c

/-- A call that is a Preview-mode look (a `type` other than 1 and 3), a
`ProcessKeyboard` call or a `ProcessMouseScroll` call. -/
def Op.isPreviewMoveZoom : Op K → Bool
  | Op.keyboard _ _ => true
  | Op.mouse _ _ type _ => decide (type ≠ 1) && decide (type ≠ 3)
  | Op.scroll _ => true
  | Op.loadPrev => false
  | Op.loadFirst => false

/-- A call that leaves the pitch constraint on: a `ProcessMouseMovement` call
with `constrainPitch = true` (the default value), or any other call. -/
def Op.constrained : Op K → Bool
  | Op.mouse _ _ _ constrainPitch => constrainPitch
  | _ => true

/-- A sequence of `ProcessMouseMovement(xoffset, yoffset, type)` calls, each
with the default `constrainPitch = true`. -/
def lookCalls (calls : List (K × K × Int)) : List (Op K) :=
  calls.map fun p => Op.mouse p.1 p.2.1 p.2.2 true

/-- The three stored pitch angles all lie in `[-89, 89]`. -/
def PitchInv (c : Camera K) : Prop :=
  (-89 ≤ c.Pitch ∧ c.Pitch ≤ 89) ∧ (-89 ≤ c.PrevPitch ∧ c.PrevPitch ≤ 89) ∧
    (-89 ≤ c.FirstPitch ∧ c.FirstPitch ≤ 89)

/-- The member `Camera::GetViewMatrix`, which returns
`glm::lookAt(Position, Position + Front, Up)` and assigns no data member: the
result is paired with the state after the call.  The library function
`glm::lookAt` and its matrix type `M` are parameters. -/
def GetViewMatrix {M : Type} (lookAt : Vec3 K → Vec3 K → Vec3 K → M) (c : Camera K) :
    M × Camera K :=
  (lookAt c.Position (c.Position.add c.Front) c.Up, c)

/-- The triple `(Front, Right, Up)` that `updateCameraVectors` computes in the
state `c` when its angles are `yaw` and `pitch`. -/
def basis (G : Glm K) (c : Camera K) (yaw pitch : K) : Vec3 K × Vec3 K × Vec3 K :=
  ((updateCameraVectors G { c with Yaw := yaw, Pitch := pitch }).Front,
   (updateCameraVectors G { c with Yaw := yaw, Pitch := pitch }).Right,
   (updateCameraVectors G { c with Yaw := yaw, Pitch := pitch }).Up)

/-- The basis recomputation as the specification gives it, a function of the
angles and the world-up axis alone:
`front = normalize (cos(rad yaw) * cos(rad pitch), sin(rad pitch),
sin(rad yaw) * cos(rad pitch))`, `right = normalize (cross front worldUp)`,
`up = normalize (cross right front)`.  The result is `(front, right, up)`. -/
def specBasis (G : Glm K) (yaw pitch : K) (worldUp : Vec3 K) : Vec3 K × Vec3 K × Vec3 K :=
  (normalize G
      ⟨G.cos (G.radians yaw) * G.cos (G.radians pitch), G.sin (G.radians pitch),
        G.sin (G.radians yaw) * G.cos (G.radians pitch)⟩,
    normalize G
      (Vec3.cross
        (normalize G
          ⟨G.cos (G.radians yaw) * G.cos (G.radians pitch), G.sin (G.radians pitch),
            G.sin (G.radians yaw) * G.cos (G.radians pitch)⟩)
        worldUp),
    normalize G
      (Vec3.cross
        (normalize G
          (Vec3.cross
            (normalize G
              ⟨G.cos (G.radians yaw) * G.cos (G.radians pitch), G.sin (G.radians pitch),
                G.sin (G.radians yaw) * G.cos (G.radians pitch)⟩)
            worldUp))
        (normalize G
          ⟨G.cos (G.radians yaw) * G.cos (G.radians pitch), G.sin (G.radians pitch),
            G.sin (G.radians yaw) * G.cos (G.radians pitch)⟩)))

/-- Each of the three snapshots holds the basis that the specification's
recomputation `specBasis` gives for the angles of that snapshot and `WorldUp`. -/
def SelfConsistent (G : Glm K) (c : Camera K) : Prop :=
  (c.Front, c.Right, c.Up) = specBasis G c.Yaw c.Pitch c.WorldUp ∧
    (c.PrevFront, c.PrevRight, c.PrevUp) = specBasis G c.PrevYaw c.PrevPitch c.WorldUp ∧
    (c.FirstFront, c.FirstRight, c.FirstUp) = specBasis G c.FirstYaw c.FirstPitch c.WorldUp

/-- Non-vanishing properties of the library functions: the cosine of an angle
of `-89` to `89` degrees is not zero, `cos` and `sin` of one angle are not
both zero, and `inversesqrt` of a positive number is not zero. -/
structure Glm.NonVanishing (G : Glm K) : Prop where
  cos_radians_ne_zero : ∀ p : K, -89 ≤ p → p ≤ 89 → G.cos (G.radians p) ≠ 0
  cos_or_sin_ne_zero : ∀ a : K, G.cos a ≠ 0 ∨ G.sin a ≠ 0
  inversesqrt_ne_zero : ∀ v : K, 0 < v → G.inversesqrt v ≠ 0

/-- The part of the state fixed at construction: the initial snapshot with
`FirstPosition`, and `WorldUp`. -/
def Camera.fixedPart (c : Camera K) :
    (K × K × Vec3 K × Vec3 K × Vec3 K) × Vec3 K × Vec3 K :=
  (c.firstSnapshot, c.FirstPosition, c.WorldUp)

/-- A sample state over the rationals for evaluating the operations that do
not call the library functions: position at the origin, looking along `-z`,
with the constructor's speed, sensitivity and zoom. -/
def sampleCamera : Camera ℚ :=
  { Position := ⟨0, 0, 0⟩
    FirstPosition := ⟨0, 0, 0⟩
    Front := ⟨0, 0, -1⟩
    FirstFront := ⟨0, 0, -1⟩
    PrevFront := ⟨0, 0, -1⟩
    Up := ⟨0, 1, 0⟩
    FirstUp := ⟨0, 1, 0⟩
    PrevUp := ⟨0, 1, 0⟩
    Right := ⟨1, 0, 0⟩
    FirstRight := ⟨1, 0, 0⟩
    PrevRight := ⟨1, 0, 0⟩
    WorldUp := ⟨0, 1, 0⟩
    Yaw := -90
    FirstYaw := -90
    PrevYaw := -90
    Pitch := 0
    FirstPitch := 0
    PrevPitch := 0
    MovementSpeed := 5 / 2
    MouseSensitivity := 1 / 10
    Zoom := 45
    MouseTriggered := true }

end Operations

/-! ## Field-level effect of the operations -/

section Lemmas

set_option linter.unusedSectionVars false

variable {K : Type} [LinearOrderedField K]

theorem storePrev_orientation (c : Camera K) :
    (storePrevCameraVectors c).orientation = c.orientation := rfl

theorem storePrev_prevSnapshot (c : Camera K) :
    (storePrevCameraVectors c).prevSnapshot = c.orientation := rfl

theorem loadPrev_orientation (c : Camera K) :
    (loadPrevCameraVectors c).orientation = c.prevSnapshot := rfl

theorem loadPrev_prevSnapshot (c : Camera K) :
    (loadPrevCameraVectors c).prevSnapshot = c.prevSnapshot := rfl

theorem updateCameraVectors_prevSnapshot (G : Glm K) (c : Camera K) :
    (updateCameraVectors G c).prevSnapshot = c.prevSnapshot := rfl

theorem updateCameraVectors_MouseTriggered (G : Glm K) (c : Camera K) :
    (updateCameraVectors G c).MouseTriggered = c.MouseTriggered := rfl

theorem constrain_prevSnapshot (c : Camera K) :
    (constrain c).prevSnapshot = c.prevSnapshot := by
  unfold constrain
  dsimp only
  split_ifs <;> rfl

theorem constrain_MouseTriggered (c : Camera K) :
    (constrain c).MouseTriggered = c.MouseTriggered := by
  unfold constrain
  dsimp only
  split_ifs <;> rfl

/-- A look in Revert mode with look enabled loads the previous snapshot. -/
theorem mouse_revert (G : Glm K) (c : Camera K) (x y : K) (cp : Bool)
    (h : c.MouseTriggered = true) :
    ProcessMouseMovement G c x y 3 cp = loadPrevCameraVectors c := by
  simp [ProcessMouseMovement, h]

/-- A look with look disabled returns the camera as it is. -/
theorem mouse_disabled (G : Glm K) (c : Camera K) (x y : K) (t : Int) (cp : Bool)
    (h : c.MouseTriggered = false) :
    ProcessMouseMovement G c x y t cp = c := by
  simp [ProcessMouseMovement, h]

/-- A look never changes `MouseTriggered`. -/
theorem mouse_MouseTriggered (G : Glm K) (c : Camera K) (x y : K) (t : Int) (cp : Bool) :
    (ProcessMouseMovement G c x y t cp).MouseTriggered = c.MouseTriggered := by
  unfold ProcessMouseMovement
  dsimp only
  split_ifs <;>
    first
    | rfl
    | (simp only [storePrevCameraVectors, updateCameraVectors_MouseTriggered,
        constrain_MouseTriggered])

/-- A Preview-mode look does not write the previous snapshot. -/
theorem mouse_preview_prevSnapshot (G : Glm K) (c : Camera K) (x y : K) (t : Int) (cp : Bool)
    (h1 : t ≠ 1) :
    (ProcessMouseMovement G c x y t cp).prevSnapshot = c.prevSnapshot := by
  unfold ProcessMouseMovement
  dsimp only
  split_ifs <;>
    first
    | rfl
    | (simp only [updateCameraVectors_prevSnapshot, constrain_prevSnapshot]; rfl)

/-! ### The basis recomputation -/

/-- A vector whose dot product with itself is positive is not the zero vector. -/
theorem Vec3.ne_zero_of_dot_pos (v : Vec3 K) (h : 0 < v.dot v) : v ≠ ⟨0, 0, 0⟩ := by
  intro hv
  rw [hv] at h
  simp [Vec3.dot] at h

/-- The vectors `updateCameraVectors` stores are the specification's basis for
the current angles and `WorldUp`. -/
theorem update_specBasis (G : Glm K) (c : Camera K) :
    ((updateCameraVectors G c).Front, (updateCameraVectors G c).Right,
      (updateCameraVectors G c).Up) = specBasis G c.Yaw c.Pitch c.WorldUp := rfl

/-- With `WorldUp = (0, 1, 0)` and a pitch in `[-89, 89]`, the cross product of
the `Front` computed by `updateCameraVectors` with `WorldUp` has a positive
squared length. -/
theorem update_cross_pos (G : Glm K) (hG : G.NonVanishing) (c : Camera K)
    (hup : c.WorldUp = ⟨0, 1, 0⟩) (hlo : -89 ≤ c.Pitch) (hhi : c.Pitch ≤ 89) :
    0 < ((updateCameraVectors G c).Front.cross c.WorldUp).dot
      ((updateCameraVectors G c).Front.cross c.WorldUp) := by
  have hcp := hG.cos_radians_ne_zero c.Pitch hlo hhi
  have hn : 0 < (Vec3.mk (G.cos (G.radians c.Yaw) * G.cos (G.radians c.Pitch))
      (G.sin (G.radians c.Pitch)) (G.sin (G.radians c.Yaw) * G.cos (G.radians c.Pitch))).dot
      (Vec3.mk (G.cos (G.radians c.Yaw) * G.cos (G.radians c.Pitch))
      (G.sin (G.radians c.Pitch)) (G.sin (G.radians c.Yaw) * G.cos (G.radians c.Pitch))) := by
    simp only [Vec3.dot]
    rcases hG.cos_or_sin_ne_zero (G.radians c.Yaw) with h | h
    · have := mul_self_pos.mpr (mul_ne_zero h hcp)
      nlinarith [mul_self_nonneg (G.sin (G.radians c.Pitch)),
        mul_self_nonneg (G.sin (G.radians c.Yaw) * G.cos (G.radians c.Pitch))]
    · have := mul_self_pos.mpr (mul_ne_zero h hcp)
      nlinarith [mul_self_nonneg (G.sin (G.radians c.Pitch)),
        mul_self_nonneg (G.cos (G.radians c.Yaw) * G.cos (G.radians c.Pitch))]
  have hi := hG.inversesqrt_ne_zero _ hn
  have key : ((updateCameraVectors G c).Front.cross c.WorldUp).dot
      ((updateCameraVectors G c).Front.cross c.WorldUp)
      = (updateCameraVectors G c).Front.z * (updateCameraVectors G c).Front.z
        + (updateCameraVectors G c).Front.x * (updateCameraVectors G c).Front.x := by
    rw [hup]
    simp only [Vec3.cross, Vec3.dot]
    ring
  rw [key]
  rcases hG.cos_or_sin_ne_zero (G.radians c.Yaw) with h | h
  · have hx : (updateCameraVectors G c).Front.x ≠ 0 := mul_ne_zero (mul_ne_zero h hcp) hi
    have := mul_self_pos.mpr hx
    nlinarith [mul_self_nonneg (updateCameraVectors G c).Front.z]
  · have hz : (updateCameraVectors G c).Front.z ≠ 0 := mul_ne_zero (mul_ne_zero h hcp) hi
    have := mul_self_pos.mpr hz
    nlinarith [mul_self_nonneg (updateCameraVectors G c).Front.x]

/-- When the library functions take their exact values at zero (`radians 0 = 0`,
`cos 0 = 1`, `sin 0 = 0`) and `inversesqrt 1 = 1`, the `Front` computed at
`Yaw = 0`, `Pitch = 0` is `(1, 0, 0)`. -/
theorem update_front_zero (G : Glm K) (c : Camera K) (hr : G.radians 0 = 0) (hc : G.cos 0 = 1)
    (hs : G.sin 0 = 0) (hi : G.inversesqrt 1 = 1) (hy : c.Yaw = 0) (hp : c.Pitch = 0) :
    (updateCameraVectors G c).Front = ⟨1, 0, 0⟩ := by
  simp [updateCameraVectors, normalize, Vec3.scale, Vec3.dot, hy, hp, hr, hc, hs, hi]

/-- The real functions `cos`, `sin`, degrees-to-radians and `1 / sqrt` have the
properties `Glm.NonVanishing`. -/
theorem real_nonVanishing :
    Glm.NonVanishing (Glm.mk Real.cos Real.sin (fun d => d * (Real.pi / 180))
      (fun v => (Real.sqrt v)⁻¹)) where
  cos_radians_ne_zero := by
    intro p hlo hhi
    show Real.cos (p * (Real.pi / 180)) ≠ 0
    have hpi := Real.pi_pos
    exact ne_of_gt (Real.cos_pos_of_mem_Ioo ⟨by nlinarith, by nlinarith⟩)
  cos_or_sin_ne_zero := by
    intro a
    show Real.cos a ≠ 0 ∨ Real.sin a ≠ 0
    by_contra h
    push_neg at h
    have h1 := Real.cos_sq_add_sin_sq a
    rw [h.1, h.2] at h1
    norm_num at h1
  inversesqrt_ne_zero := by
    intro v hv
    show (Real.sqrt v)⁻¹ ≠ 0
    exact inv_ne_zero (ne_of_gt (Real.sqrt_pos.mpr hv))

/-- The pitch constraint as a clamp: only `Pitch` changes, to
`max (-89) (min 89 Pitch)`. -/
theorem constrain_eq (c : Camera K) :
    constrain c = { c with Pitch := max (-89) (min 89 c.Pitch) } := by
  unfold constrain
  dsimp only
  by_cases h1 : c.Pitch > 89
  · have h2 : ¬ ((89 : K) < -89) := by norm_num
    rw [if_pos h1]
    dsimp only
    rw [if_neg h2, min_eq_left (le_of_lt h1), max_eq_right (by norm_num)]
  · rw [if_neg h1]
    have h1' : c.Pitch ≤ 89 := not_lt.mp h1
    by_cases h3 : c.Pitch < -89
    · rw [if_pos h3, min_eq_right h1', max_eq_left (le_of_lt h3)]
    · rw [if_neg h3, min_eq_right h1', max_eq_right (not_lt.mp h3)]

/-- A look in Preview or Commit mode with look enabled: the angles are updated,
the basis recomputed, and in Commit mode the previous snapshot written. -/
theorem mouse_update (G : Glm K) (c : Camera K) (x y : K) (t : Int) (cp : Bool)
    (hm : c.MouseTriggered = true) (h3 : t ≠ 3) :
    ProcessMouseMovement G c x y t cp =
      (if t = 1 then storePrevCameraVectors else id)
        (updateCameraVectors G
          { c with
            Yaw := c.Yaw + x * c.MouseSensitivity
            Pitch := if cp = true then max (-89) (min 89 (c.Pitch + y * c.MouseSensitivity))
              else c.Pitch + y * c.MouseSensitivity }) := by
  unfold ProcessMouseMovement
  rw [if_neg (by simp [hm]), if_neg h3]
  dsimp only
  cases cp with
  | false => by_cases h1 : t = 1 <;> simp [h1]
  | true => by_cases h1 : t = 1 <;> simp [h1, constrain_eq]

theorem clamp_bounds (v : K) : -89 ≤ max (-89) (min 89 v) ∧ max (-89) (min 89 v) ≤ 89 :=
  ⟨le_max_left _ _, max_le (by norm_num) (min_le_left _ _)⟩

/-- Every call that leaves the pitch constraint on preserves `PitchInv`. -/
theorem apply_pitchInv (G : Glm K) (c : Camera K) (o : Op K) (hc : o.constrained = true)
    (h : PitchInv c) : PitchInv (Op.apply G c o) := by
  cases o with
  | keyboard d dt => cases d <;> exact h
  | mouse x y t cp =>
    simp only [Op.constrained] at hc
    subst hc
    simp only [Op.apply]
    cases hm : c.MouseTriggered with
    | false => rw [mouse_disabled G c x y t true hm]; exact h
    | true =>
      by_cases h3 : t = 3
      · subst h3
        rw [mouse_revert G c x y true hm]
        exact ⟨h.2.1, h.2.1, h.2.2⟩
      · rw [mouse_update G c x y t true hm h3]
        by_cases h1 : t = 1
        · rw [if_pos h1]
          exact ⟨clamp_bounds _, clamp_bounds _, h.2.2⟩
        · rw [if_neg h1]
          exact ⟨clamp_bounds _, h.2.1, h.2.2⟩
  | scroll y =>
    simp only [Op.apply, ProcessMouseScroll]
    split_ifs <;> exact h
  | loadPrev => exact ⟨h.2.1, h.2.1, h.2.2⟩
  | loadFirst => exact ⟨h.2.2, h.2.2, h.2.2⟩

/-- Every sequence of calls that leave the pitch constraint on preserves
`PitchInv`. -/
theorem run_pitchInv (G : Glm K) (ops : List (Op K)) (c : Camera K)
    (hc : ∀ o ∈ ops, o.constrained = true) (h : PitchInv c) : PitchInv (run G c ops) := by
  induction ops generalizing c with
  | nil => exact h
  | cons o rest ih =>
    exact ih (Op.apply G c o) (fun o' ho' => hc o' (List.mem_cons_of_mem _ ho'))
      (apply_pitchInv G c o (hc o (List.mem_cons_self _ _)) h)

/-- The constructor establishes `PitchInv` when its `pitch` lies in `[-89, 89]`. -/
theorem new_pitchInv (G : Glm K) (position up : Vec3 K) (yaw pitch : K)
    (hlo : -89 ≤ pitch) (hhi : pitch ≤ 89) : PitchInv (Camera.new G position up yaw pitch) :=
  ⟨⟨hlo, hhi⟩, ⟨hlo, hhi⟩, ⟨hlo, hhi⟩⟩

theorem lookCalls_constrained (calls : List (K × K × Int)) :
    ∀ o ∈ lookCalls calls, o.constrained = true := by
  intro o ho
  simp only [lookCalls, List.mem_map] at ho
  obtain ⟨p, _, rfl⟩ := ho
  rfl

/-- With look enabled, sensitivity `1/10` and `Pitch ≥ -11`, a constrained look
with `yoffset = 1000` in Preview or Commit mode sets `Pitch` to `89`. -/
theorem mouse_big_pitch (G : Glm K) (c : Camera K) (x : K) (t : Int)
    (hm : c.MouseTriggered = true) (hs : c.MouseSensitivity = 1 / 10) (hp : -11 ≤ c.Pitch)
    (h3 : t ≠ 3) :
    (ProcessMouseMovement G c x 1000 t true).Pitch = 89 := by
  rw [mouse_update G c x 1000 t true hm h3]
  have hv : max (-89) (min 89 (c.Pitch + 1000 * c.MouseSensitivity)) = (89 : K) := by
    rw [hs, min_eq_left (by linarith), max_eq_right (by norm_num)]
  by_cases h1 : t = 1
  · rw [if_pos h1]
    simpa [storePrevCameraVectors, updateCameraVectors] using hv
  · rw [if_neg h1]
    simpa [updateCameraVectors] using hv

/-- A look never changes `MouseSensitivity`. -/
theorem mouse_MouseSensitivity (G : Glm K) (c : Camera K) (x y : K) (t : Int) (cp : Bool) :
    (ProcessMouseMovement G c x y t cp).MouseSensitivity = c.MouseSensitivity := by
  cases hm : c.MouseTriggered with
  | false => rw [mouse_disabled G c x y t cp hm]
  | true =>
    by_cases h3 : t = 3
    · subst h3
      rw [mouse_revert G c x y cp hm]
      rfl
    · rw [mouse_update G c x y t cp hm h3]
      by_cases h1 : t = 1
      · rw [if_pos h1]; rfl
      · rw [if_neg h1]; rfl

/-- Any non-empty sequence of constrained looks with `yoffset = 1000` in
Preview or Commit mode ends with `Pitch = 89`. -/
theorem run_big_pitch (G : Glm K) (calls : List (K × K × Int)) (c : Camera K)
    (hcalls : ∀ p ∈ calls, p.2.1 = 1000 ∧ p.2.2 ≠ 3)
    (hm : c.MouseTriggered = true) (hs : c.MouseSensitivity = 1 / 10) (hp : -11 ≤ c.Pitch)
    (hne : calls ≠ []) :
    (run G c (lookCalls calls)).Pitch = 89 := by
  induction calls generalizing c with
  | nil => exact absurd rfl hne
  | cons p rest ih =>
    obtain ⟨hy, ht⟩ := hcalls p (List.mem_cons_self _ _)
    have hstep : (ProcessMouseMovement G c p.1 p.2.1 p.2.2 true).Pitch = 89 := by
      rw [hy]; exact mouse_big_pitch G c p.1 p.2.2 hm hs hp ht
    by_cases hr : rest = []
    · subst hr
      exact hstep
    · have h := ih (ProcessMouseMovement G c p.1 p.2.1 p.2.2 true)
        (fun q hq => hcalls q (List.mem_cons_of_mem _ hq))
        (by rw [mouse_MouseTriggered]; exact hm)
        (by rw [mouse_MouseSensitivity]; exact hs)
        (by rw [hstep]; norm_num) hr
      exact h

/-- With look enabled, one or more Revert-mode looks amount to one
`loadPrevCameraVectors`. -/
theorem run_revert_replicate (G : Glm K) (n : Nat) (c : Camera K) (x y : K)
    (hm : c.MouseTriggered = true) :
    run G c (lookCalls (List.replicate (n + 1) (x, y, 3))) = loadPrevCameraVectors c := by
  induction n generalizing c with
  | zero => exact mouse_revert G c x y true hm
  | succ k ih =>
    have h := ih (loadPrevCameraVectors c) hm
    have hstep : ProcessMouseMovement G c x y 3 true = loadPrevCameraVectors c :=
      mouse_revert G c x y true hm
    rw [List.replicate_succ]
    simp only [run, lookCalls, List.map_cons, List.foldl_cons, Op.apply] at h ⊢
    rw [hstep]
    exact h

/-- No public call changes `WorldUp`. -/
theorem apply_WorldUp (G : Glm K) (c : Camera K) (o : Op K) :
    (Op.apply G c o).WorldUp = c.WorldUp := by
  cases o with
  | keyboard d dt => cases d <;> rfl
  | mouse x y t cp =>
    simp only [Op.apply]
    cases hm : c.MouseTriggered with
    | false => rw [mouse_disabled G c x y t cp hm]
    | true =>
      by_cases h3 : t = 3
      · subst h3
        rw [mouse_revert G c x y cp hm]
        rfl
      · rw [mouse_update G c x y t cp hm h3]
        by_cases h1 : t = 1
        · rw [if_pos h1]; rfl
        · rw [if_neg h1]; rfl
  | scroll y =>
    simp only [Op.apply, ProcessMouseScroll]
    split_ifs <;> rfl
  | loadPrev => rfl
  | loadFirst => rfl

/-- A Commit-mode look with look enabled leaves the previous snapshot equal to
the new current orientation. -/
theorem mouse_commit_prevSnapshot (G : Glm K) (c : Camera K) (x y : K) (cp : Bool)
    (h : c.MouseTriggered = true) :
    (ProcessMouseMovement G c x y 1 cp).prevSnapshot
      = (ProcessMouseMovement G c x y 1 cp).orientation := by
  simp [ProcessMouseMovement, h, storePrev_prevSnapshot, storePrev_orientation]

theorem constrain_first (c : Camera K) :
    (constrain c).firstSnapshot = c.firstSnapshot ∧
      (constrain c).FirstPosition = c.FirstPosition := by
  unfold constrain
  dsimp only
  split_ifs <;> exact ⟨rfl, rfl⟩

/-- No public call changes the initial snapshot. -/
theorem apply_first (G : Glm K) (c : Camera K) (o : Op K) :
    (Op.apply G c o).firstSnapshot = c.firstSnapshot ∧
      (Op.apply G c o).FirstPosition = c.FirstPosition := by
  cases o with
  | keyboard d dt => cases d <;> exact ⟨rfl, rfl⟩
  | mouse x y t cp =>
    simp only [Op.apply, ProcessMouseMovement]
    split_ifs <;>
      first
      | exact ⟨rfl, rfl⟩
      | exact constrain_first _
  | scroll y =>
    simp only [Op.apply, ProcessMouseScroll]
    split_ifs <;> exact ⟨rfl, rfl⟩
  | loadPrev => exact ⟨rfl, rfl⟩
  | loadFirst => exact ⟨rfl, rfl⟩

/-- No sequence of public calls changes the initial snapshot. -/
theorem run_first (G : Glm K) (ops : List (Op K)) (c : Camera K) :
    (run G c ops).firstSnapshot = c.firstSnapshot ∧
      (run G c ops).FirstPosition = c.FirstPosition := by
  induction ops generalizing c with
  | nil => exact ⟨rfl, rfl⟩
  | cons o rest ih =>
    have h := ih (Op.apply G c o)
    have hs := apply_first G c o
    simp only [run, List.foldl_cons] at h ⊢
    exact ⟨h.1.trans hs.1, h.2.trans hs.2⟩

/-- No public call changes the part of the state fixed at construction. -/
theorem apply_fixedPart (G : Glm K) (c : Camera K) (o : Op K) :
    (Op.apply G c o).fixedPart = c.fixedPart := by
  have h1 := apply_first G c o
  have h2 := apply_WorldUp G c o
  simp only [Camera.fixedPart, h1.1, h1.2, h2]

/-- No sequence of public calls changes the part of the state fixed at
construction. -/
theorem run_fixedPart (G : Glm K) (ops : List (Op K)) (c : Camera K) :
    (run G c ops).fixedPart = c.fixedPart := by
  induction ops generalizing c with
  | nil => rfl
  | cons o rest ih =>
    have h := ih (Op.apply G c o)
    simp only [run, List.foldl_cons] at h ⊢
    rw [h, apply_fixedPart]

/-- Every public call keeps the three snapshots self-consistent. -/
theorem apply_selfConsistent (G : Glm K) (c : Camera K) (o : Op K) (h : SelfConsistent G c) :
    SelfConsistent G (Op.apply G c o) := by
  cases o with
  | keyboard d dt => cases d <;> exact h
  | mouse x y t cp =>
    simp only [Op.apply]
    cases hm : c.MouseTriggered with
    | false => rw [mouse_disabled G c x y t cp hm]; exact h
    | true =>
      by_cases h3 : t = 3
      · subst h3
        rw [mouse_revert G c x y cp hm]
        exact ⟨h.2.1, h.2.1, h.2.2⟩
      · rw [mouse_update G c x y t cp hm h3]
        by_cases h1 : t = 1
        · rw [if_pos h1]
          exact ⟨update_specBasis G _, update_specBasis G _, h.2.2⟩
        · rw [if_neg h1]
          exact ⟨update_specBasis G _, h.2.1, h.2.2⟩
  | scroll y =>
    simp only [Op.apply, ProcessMouseScroll]
    split_ifs <;> exact h
  | loadPrev => exact ⟨h.2.1, h.2.1, h.2.2⟩
  | loadFirst => exact ⟨h.2.2, h.2.2, h.2.2⟩

/-- Every sequence of public calls keeps the three snapshots self-consistent. -/
theorem run_selfConsistent (G : Glm K) (ops : List (Op K)) (c : Camera K)
    (h : SelfConsistent G c) : SelfConsistent G (run G c ops) := by
  induction ops generalizing c with
  | nil => exact h
  | cons o rest ih => exact ih (Op.apply G c o) (apply_selfConsistent G c o h)

/-- The constructor yields three self-consistent snapshots. -/
theorem new_selfConsistent (G : Glm K) (position up : Vec3 K) (yaw pitch : K) :
    SelfConsistent G (Camera.new G position up yaw pitch) :=
  ⟨update_specBasis G _, update_specBasis G _, update_specBasis G _⟩

/-- Calls that are Preview-mode looks, movements or zooms keep the previous
snapshot and `MouseTriggered`. -/
theorem run_previewMoveZoom (G : Glm K) (ops : List (Op K)) (c : Camera K)
    (hops : ∀ o ∈ ops, o.isPreviewMoveZoom = true) :
    (run G c ops).prevSnapshot = c.prevSnapshot ∧
      (run G c ops).MouseTriggered = c.MouseTriggered := by
  induction ops generalizing c with
  | nil => exact ⟨rfl, rfl⟩
  | cons o rest ih =>
    have hrest : ∀ o' ∈ rest, o'.isPreviewMoveZoom = true :=
      fun o' ho' => hops o' (List.mem_cons_of_mem _ ho')
    have ho : o.isPreviewMoveZoom = true := hops o (List.mem_cons_self _ _)
    have hstep : (Op.apply G c o).prevSnapshot = c.prevSnapshot ∧
        (Op.apply G c o).MouseTriggered = c.MouseTriggered := by
      cases o with
      | keyboard d dt =>
        refine ⟨?_, ?_⟩ <;> cases d <;> rfl
      | mouse x y t cp =>
        simp only [Op.isPreviewMoveZoom, Bool.and_eq_true, decide_eq_true_eq] at ho
        exact ⟨mouse_preview_prevSnapshot G c x y t cp ho.1, mouse_MouseTriggered G c x y t cp⟩
      | scroll y =>
        simp only [Op.apply, ProcessMouseScroll]
        refine ⟨?_, ?_⟩ <;> split_ifs <;> rfl
      | loadPrev => simp [Op.isPreviewMoveZoom] at ho
      | loadFirst => simp [Op.isPreviewMoveZoom] at ho
    have h := ih (Op.apply G c o) hrest
    simp only [run, List.foldl_cons] at h ⊢
    exact ⟨h.1.trans hstep.1, h.2.trans hstep.2⟩

end Lemmas

/-! ## The claims -/

section Claims

variable {K : Type} [LinearOrderedField K]

/-- C1 (as stated, refuted): on the default camera after one Preview-mode look
with `xoffset = 10`, a further Preview-mode look followed by a Revert-mode look
does not give back the orientation the camera had before the pair of calls:
the yaw goes back to the constructed `-90`, not to the `-89` of that state. -/
theorem C1_counterexample :
    let G : Glm ℝ :=
      Glm.mk Real.cos Real.sin (fun d => d * (Real.pi / 180)) (fun v => (Real.sqrt v)⁻¹)
    let S0 : Camera ℝ :=
      ProcessMouseMovement G (Camera.new G ⟨0, 0, 0⟩ ⟨0, 1, 0⟩ YAW PITCH) 10 0 2 true
    let S2 : Camera ℝ :=
      ProcessMouseMovement G (ProcessMouseMovement G S0 5 5 2 true) 0 0 3 true
    S2.Yaw = -90 ∧ S0.Yaw = -89 ∧ S2.orientation ≠ S0.orientation := by
  intro G S0 S2
  have h2 : S2.orientation.1 = -90 := by
    simp only [S2]
    rw [mouse_revert _ _ _ _ _ (by simp only [S0, mouse_MouseTriggered]; rfl)]
    rw [loadPrev_orientation, mouse_preview_prevSnapshot _ _ _ _ _ _ (by decide)]
    simp only [S0]
    rw [mouse_preview_prevSnapshot _ _ _ _ _ _ (by decide)]
    rfl
  have h0 : S0.orientation.1 = -89 := by
    simp [S0, ProcessMouseMovement, Camera.new, Camera.orientation, storeFirstCameraVectors,
      storePrevCameraVectors, updateCameraVectors, constrain, YAW, PITCH, SENSITIVITY]
    norm_num
  refine ⟨h2, h0, fun h => ?_⟩
  rw [h] at h2
  rw [h0] at h2
  norm_num at h2

/-- C1 (amended): for every camera state whose previous snapshot equals its
current orientation, and all deltas, a Preview-mode look (a `type` other than 1
and 3) followed by a Revert-mode look leaves the orientation
`(Yaw, Pitch, Front, Right, Up)` equal to the orientation before the two calls. -/
theorem C1_preview_then_revert (G : Glm K) (c : Camera K) (x y x' y' : K) (t : Int)
    (cp cp' : Bool) (h1 : t ≠ 1) (_h3 : t ≠ 3) (hprev : c.prevSnapshot = c.orientation) :
    (ProcessMouseMovement G (ProcessMouseMovement G c x y t cp) x' y' 3 cp').orientation
      = c.orientation := by
  cases hm : c.MouseTriggered with
  | false =>
    rw [mouse_disabled G c x y t cp hm, mouse_disabled G c x' y' 3 cp' hm]
  | true =>
    rw [mouse_revert G _ x' y' cp' (by rw [mouse_MouseTriggered]; exact hm),
      loadPrev_orientation, mouse_preview_prevSnapshot G c x y t cp h1, hprev]

/-- C1 (witness): the amended round-trip on the default camera. -/
theorem C1_preview_then_revert_witness :
    let G : Glm ℝ :=
      Glm.mk Real.cos Real.sin (fun d => d * (Real.pi / 180)) (fun v => (Real.sqrt v)⁻¹)
    let S0 : Camera ℝ := Camera.new G ⟨0, 0, 0⟩ ⟨0, 1, 0⟩ YAW PITCH
    (ProcessMouseMovement G (ProcessMouseMovement G S0 10 20 2 true) 0 0 3 true).orientation
      = S0.orientation := by
  intro G S0
  exact C1_preview_then_revert G S0 10 20 0 0 2 true true (by decide) (by decide) rfl

/-- C2: with look enabled, after a Commit-mode look (type 1) any sequence of
Preview-mode looks, `ProcessKeyboard` calls and `ProcessMouseScroll` calls
followed by one Revert-mode look (type 3) yields the orientation
`(Yaw, Pitch, Front, Right, Up)` the Commit-mode look produced, and the Revert
call does not change `Position`. -/
theorem C2_commit_then_revert (G : Glm K) (c : Camera K) (x y x' y' : K) (cp cp' : Bool)
    (ops : List (Op K)) (hm : c.MouseTriggered = true)
    (hops : ∀ o ∈ ops, o.isPreviewMoveZoom = true) :
    (ProcessMouseMovement G (run G (ProcessMouseMovement G c x y 1 cp) ops) x' y' 3
        cp').orientation
      = (ProcessMouseMovement G c x y 1 cp).orientation
    ∧ (ProcessMouseMovement G (run G (ProcessMouseMovement G c x y 1 cp) ops) x' y' 3
        cp').Position
      = (run G (ProcessMouseMovement G c x y 1 cp) ops).Position := by
  have hkeep := run_previewMoveZoom G ops (ProcessMouseMovement G c x y 1 cp) hops
  have hm' : (run G (ProcessMouseMovement G c x y 1 cp) ops).MouseTriggered = true := by
    rw [hkeep.2, mouse_MouseTriggered, hm]
  rw [mouse_revert G _ x' y' cp' hm']
  refine ⟨?_, rfl⟩
  rw [loadPrev_orientation, hkeep.1, mouse_commit_prevSnapshot G c x y cp hm]

/-- C2 (witness): commit on the default camera, then a Preview-mode look, a
movement and a zoom, then Revert. -/
theorem C2_commit_then_revert_witness :
    let G : Glm ℝ :=
      Glm.mk Real.cos Real.sin (fun d => d * (Real.pi / 180)) (fun v => (Real.sqrt v)⁻¹)
    let S1 : Camera ℝ :=
      ProcessMouseMovement G (Camera.new G ⟨0, 0, 0⟩ ⟨0, 1, 0⟩ YAW PITCH) 10 20 1 true
    let S2 : Camera ℝ :=
      run G S1 [Op.mouse 5 5 2 true, Op.keyboard Camera_Movement.FORWARD 1, Op.scroll 3]
    (ProcessMouseMovement G S2 0 0 3 true).orientation = S1.orientation
      ∧ (ProcessMouseMovement G S2 0 0 3 true).Position = S2.Position := by
  intro G S1 S2
  exact C2_commit_then_revert G (Camera.new G ⟨0, 0, 0⟩ ⟨0, 1, 0⟩ YAW PITCH) 10 20 0 0 true true
    [Op.mouse 5 5 2 true, Op.keyboard Camera_Movement.FORWARD 1, Op.scroll 3] rfl
    (by simp [Op.isPreviewMoveZoom])

/-- C3: `loadFirstCameraVectors` followed by a Revert-mode look yields the
initial pose.  For every state, `Yaw, Pitch, Front, Right, Up` and `Position`
then equal the initial snapshot, and `loadFirstCameraVectors` has written that
orientation into the previous snapshot; for every state reached from the
constructor by public calls, the initial snapshot is the constructed pose, so
the result equals it. -/
theorem C3_restoreInitial_then_revert (G : Glm K) :
    (∀ (c : Camera K) (x y : K) (cp : Bool),
      (ProcessMouseMovement G (loadFirstCameraVectors c) x y 3 cp).orientation
          = c.firstSnapshot
        ∧ (ProcessMouseMovement G (loadFirstCameraVectors c) x y 3 cp).Position
          = c.FirstPosition
        ∧ (loadFirstCameraVectors c).prevSnapshot = c.firstSnapshot)
    ∧ (∀ (position up : Vec3 K) (yaw pitch : K) (ops : List (Op K)) (x y : K) (cp : Bool),
      (ProcessMouseMovement G
          (loadFirstCameraVectors (run G (Camera.new G position up yaw pitch) ops))
          x y 3 cp).orientation
          = (Camera.new G position up yaw pitch).orientation
        ∧ (ProcessMouseMovement G
          (loadFirstCameraVectors (run G (Camera.new G position up yaw pitch) ops))
          x y 3 cp).Position = position) := by
  have hall : ∀ (c : Camera K) (x y : K) (cp : Bool),
      (ProcessMouseMovement G (loadFirstCameraVectors c) x y 3 cp).orientation
          = c.firstSnapshot
        ∧ (ProcessMouseMovement G (loadFirstCameraVectors c) x y 3 cp).Position
          = c.FirstPosition
        ∧ (loadFirstCameraVectors c).prevSnapshot = c.firstSnapshot := by
    intro c x y cp
    cases hm : c.MouseTriggered with
    | false =>
      rw [mouse_disabled G _ x y 3 cp (by simpa [loadFirstCameraVectors, storePrevCameraVectors]
        using hm)]
      exact ⟨rfl, rfl, rfl⟩
    | true =>
      rw [mouse_revert G _ x y cp (by simpa [loadFirstCameraVectors, storePrevCameraVectors]
        using hm)]
      exact ⟨rfl, rfl, rfl⟩
  refine ⟨hall, ?_⟩
  intro position up yaw pitch ops x y cp
  have h := hall (run G (Camera.new G position up yaw pitch) ops) x y cp
  have hf := run_first G ops (Camera.new G position up yaw pitch)
  rw [h.1, h.2.1, hf.1, hf.2]
  exact ⟨rfl, rfl⟩

/-- C4: when `MouseTriggered` is false, `ProcessMouseMovement` with any
deltas, any `type` and any `constrainPitch` returns the camera state unchanged
(every data member, hence the orientation, both snapshots, `Position`, `Zoom`). -/
theorem C4_look_disabled_noop (G : Glm K) (c : Camera K) (x y : K) (t : Int) (cp : Bool)
    (h : c.MouseTriggered = false) :
    ProcessMouseMovement G c x y t cp = c := by
  unfold ProcessMouseMovement
  rw [if_pos h]

/-- C4 (witness): the default camera with `MouseTriggered` set to false. -/
theorem C4_look_disabled_noop_witness :
    let G : Glm ℝ :=
      Glm.mk Real.cos Real.sin (fun d => d * (Real.pi / 180)) (fun v => (Real.sqrt v)⁻¹)
    let S0 : Camera ℝ :=
      { Camera.new G ⟨0, 0, 0⟩ ⟨0, 1, 0⟩ YAW PITCH with MouseTriggered := false }
    ProcessMouseMovement G S0 10 20 1 true = S0
      ∧ ProcessMouseMovement G S0 10 20 2 false = S0
      ∧ ProcessMouseMovement G S0 10 20 3 true = S0 := by
  intro G S0
  exact ⟨C4_look_disabled_noop G S0 10 20 1 true rfl,
    C4_look_disabled_noop G S0 10 20 2 false rfl,
    C4_look_disabled_noop G S0 10 20 3 true rfl⟩

/-- C5 (as stated, refuted): a camera constructed with `pitch = 100` keeps
`Pitch = 100 > 89` after a Revert-mode look; and 1000 Revert-mode looks with
`yoffset = 1000` on the default camera leave `Pitch = 0`, not `89`. -/
theorem C5_counterexample :
    let G : Glm ℝ :=
      Glm.mk Real.cos Real.sin (fun d => d * (Real.pi / 180)) (fun v => (Real.sqrt v)⁻¹)
    (ProcessMouseMovement G (Camera.new G ⟨0, 0, 0⟩ ⟨0, 1, 0⟩ YAW 100) 0 0 3 true).Pitch = 100
      ∧ ¬ ((ProcessMouseMovement G (Camera.new G ⟨0, 0, 0⟩ ⟨0, 1, 0⟩ YAW 100) 0 0 3 true).Pitch
          ≤ 89)
      ∧ (run G (Camera.new G ⟨0, 0, 0⟩ ⟨0, 1, 0⟩ YAW PITCH)
          (lookCalls (List.replicate 1000 (0, 1000, 3)))).Pitch = 0 := by
  intro G
  have h : (ProcessMouseMovement G (Camera.new G ⟨0, 0, 0⟩ ⟨0, 1, 0⟩ YAW 100) 0 0 3
      true).Pitch = 100 := by
    rw [mouse_revert G _ 0 0 true rfl]
    rfl
  refine ⟨h, ?_, ?_⟩
  · rw [h]; norm_num
  · rw [run_revert_replicate G 999 _ 0 1000 rfl]
    rfl

/-- C5 (amended): for a camera constructed with `pitch` in `[-89, 89]`, after
any sequence of `ProcessMouseMovement` calls with the default
`constrainPitch = true`, in any mode and with deltas of any magnitude, `Pitch`
lies in `[-89, 89]`; and 1000 such calls with `yoffset = 1000`, each in a mode
other than Revert, on the default camera leave `Pitch = 89`. -/
theorem C5_pitch_clamped (G : Glm K) (position up : Vec3 K) (yaw pitch : K)
    (calls : List (K × K × Int)) (hlo : -89 ≤ pitch) (hhi : pitch ≤ 89) :
    (-89 ≤ (run G (Camera.new G position up yaw pitch) (lookCalls calls)).Pitch
      ∧ (run G (Camera.new G position up yaw pitch) (lookCalls calls)).Pitch ≤ 89)
    ∧ (∀ big : List (K × K × Int), big.length = 1000 →
        (∀ p ∈ big, p.2.1 = 1000 ∧ p.2.2 ≠ 3) →
        (run G (Camera.new G ⟨0, 0, 0⟩ ⟨0, 1, 0⟩ YAW PITCH) (lookCalls big)).Pitch = 89) := by
  refine ⟨(run_pitchInv G (lookCalls calls) _ (lookCalls_constrained calls)
    (new_pitchInv G position up yaw pitch hlo hhi)).1, ?_⟩
  intro big hlen hbig
  refine run_big_pitch G big _ hbig rfl rfl ?_ ?_
  · show (-11 : K) ≤ PITCH
    norm_num [PITCH]
  · intro h
    rw [h, List.length_nil] at hlen
    exact absurd hlen (by norm_num)

/-- C5 (witness): a camera constructed with `pitch = 45`, after a Preview-mode
look up by `1000`, a Commit-mode look down by `5000` and a Revert-mode look. -/
theorem C5_pitch_clamped_witness :
    let G : Glm ℝ :=
      Glm.mk Real.cos Real.sin (fun d => d * (Real.pi / 180)) (fun v => (Real.sqrt v)⁻¹)
    ((-89 : ℝ) ≤ 45 ∧ (45 : ℝ) ≤ 89)
    ∧ (-89 ≤ (run G (Camera.new G ⟨0, 0, 0⟩ ⟨0, 1, 0⟩ YAW 45)
          (lookCalls [(3, 1000, 2), (0, -5000, 1), (0, 0, 3)])).Pitch
      ∧ (run G (Camera.new G ⟨0, 0, 0⟩ ⟨0, 1, 0⟩ YAW 45)
          (lookCalls [(3, 1000, 2), (0, -5000, 1), (0, 0, 3)])).Pitch ≤ 89)
    ∧ (run G (Camera.new G ⟨0, 0, 0⟩ ⟨0, 1, 0⟩ YAW PITCH)
          (lookCalls (List.replicate 1000 (0, 1000, 2)))).Pitch = 89 := by
  intro G
  have h := C5_pitch_clamped G ⟨0, 0, 0⟩ ⟨0, 1, 0⟩ YAW 45
    [(3, 1000, 2), (0, -5000, 1), (0, 0, 3)] (by norm_num) (by norm_num)
  refine ⟨⟨by norm_num, by norm_num⟩, h.1, ?_⟩
  refine h.2 (List.replicate 1000 (0, 1000, 2)) (List.length_replicate _ _) ?_
  intro p hp
  rw [List.eq_of_mem_replicate hp]
  exact ⟨rfl, by decide⟩

/-- C6: `ProcessMouseScroll` sets `Zoom` to `Zoom - yoffset` clamped into
`[1, 45]` and changes no other data member; the new `Zoom` lies in `[1, 45]`
and equals `Zoom - yoffset` whenever that value is already in `[1, 45]`. -/
theorem C6_zoom_clamped (c : Camera K) (yoffset : K) :
    ProcessMouseScroll c yoffset = { c with Zoom := max 1 (min 45 (c.Zoom - yoffset)) }
    ∧ 1 ≤ (ProcessMouseScroll c yoffset).Zoom
    ∧ (ProcessMouseScroll c yoffset).Zoom ≤ 45
    ∧ (1 ≤ c.Zoom - yoffset → c.Zoom - yoffset ≤ 45 →
        (ProcessMouseScroll c yoffset).Zoom = c.Zoom - yoffset) := by
  have heq : ProcessMouseScroll c yoffset
      = { c with Zoom := max 1 (min 45 (c.Zoom - yoffset)) } := by
    unfold ProcessMouseScroll
    dsimp only
    by_cases h1 : c.Zoom - yoffset < 1
    · have h2 : ¬ ((1 : K) > 45) := by norm_num
      rw [if_pos h1]
      dsimp only
      rw [if_neg h2, min_eq_right (by linarith), max_eq_left (le_of_lt h1)]
    · rw [if_neg h1]
      have h1' : 1 ≤ c.Zoom - yoffset := not_lt.mp h1
      by_cases h3 : c.Zoom - yoffset > 45
      · rw [if_pos h3, min_eq_left (le_of_lt h3), max_eq_right (by norm_num)]
      · rw [if_neg h3, min_eq_right (not_lt.mp h3), max_eq_right h1']
  refine ⟨heq, ?_, ?_, ?_⟩
  · rw [heq]; exact le_max_left _ _
  · rw [heq]; exact max_le (by norm_num) (min_le_left _ _)
  · intro hlo hhi
    rw [heq]
    show max 1 (min 45 (c.Zoom - yoffset)) = c.Zoom - yoffset
    rw [min_eq_right hhi, max_eq_right hlo]

/-- C6 (witness): scrolling by `10` from `Zoom = 45` gives `Zoom = 35`. -/
theorem C6_zoom_clamped_witness :
    (ProcessMouseScroll sampleCamera 10).Zoom = 35
    ∧ ProcessMouseScroll sampleCamera 10
      = { sampleCamera with Zoom := max 1 (min 45 (sampleCamera.Zoom - 10)) } :=
  ⟨by
    rw [(C6_zoom_clamped sampleCamera 10).2.2.2 (by norm_num [sampleCamera])
      (by norm_num [sampleCamera])]
    norm_num [sampleCamera],
   (C6_zoom_clamped sampleCamera 10).1⟩

/-- C7 (as stated, refuted): from `Zoom = 45`, `ProcessMouseScroll(-100)`
yields `Zoom = 45`, not `1`: the offset is subtracted, so a negative offset
raises the zoom, which is then clamped to `45`. -/
theorem C7_counterexample :
    sampleCamera.Zoom = 45 ∧ (ProcessMouseScroll sampleCamera (-100)).Zoom = 45
      ∧ (ProcessMouseScroll sampleCamera (-100)).Zoom ≠ 1 := by
  have h : (ProcessMouseScroll sampleCamera (-100)).Zoom = 45 := by
    simp only [ProcessMouseScroll, sampleCamera]
    norm_num
  refine ⟨rfl, h, ?_⟩
  rw [h]
  norm_num

/-- C7 (amended): starting from `Zoom = 45`, `ProcessMouseScroll(-100)` yields
`Zoom = 45`; and starting from `Zoom = 1`, `ProcessMouseScroll(1000)` yields
`Zoom = 1`. -/
theorem C7_zoom_examples (c c' : Camera K) (h : c.Zoom = 45) (h' : c'.Zoom = 1) :
    (ProcessMouseScroll c (-100)).Zoom = 45 ∧ (ProcessMouseScroll c' 1000).Zoom = 1 := by
  constructor
  · simp only [ProcessMouseScroll, h]
    norm_num
  · simp only [ProcessMouseScroll, h']
    norm_num

/-- C7 (witness): the two examples on the sample state and on the sample
state with `Zoom` set to `1`. -/
theorem C7_zoom_examples_witness :
    (ProcessMouseScroll sampleCamera (-100)).Zoom = 45
      ∧ (ProcessMouseScroll { sampleCamera with Zoom := 1 } 1000).Zoom = 1 :=
  C7_zoom_examples sampleCamera { sampleCamera with Zoom := 1 } rfl rfl

/-- C8: `ProcessKeyboard` with `velocity = MovementSpeed * deltaTime` replaces
`Position` by `Position + Front * velocity` (FORWARD), `Position - Front *
velocity` (BACKWARD), `Position - Right * velocity` (LEFT), `Position + Right *
velocity` (RIGHT) or `Position + WorldUp * velocity` (UP), and changes no other
data member. -/
theorem C8_movement (c : Camera K) (deltaTime : K) :
    ProcessKeyboard c Camera_Movement.FORWARD deltaTime
      = { c with Position := c.Position.add (c.Front.scale (c.MovementSpeed * deltaTime)) }
    ∧ ProcessKeyboard c Camera_Movement.BACKWARD deltaTime
      = { c with Position := c.Position.sub (c.Front.scale (c.MovementSpeed * deltaTime)) }
    ∧ ProcessKeyboard c Camera_Movement.LEFT deltaTime
      = { c with Position := c.Position.sub (c.Right.scale (c.MovementSpeed * deltaTime)) }
    ∧ ProcessKeyboard c Camera_Movement.RIGHT deltaTime
      = { c with Position := c.Position.add (c.Right.scale (c.MovementSpeed * deltaTime)) }
    ∧ ProcessKeyboard c Camera_Movement.UP deltaTime
      = { c with Position := c.Position.add (c.WorldUp.scale (c.MovementSpeed * deltaTime)) } :=
  ⟨rfl, rfl, rfl, rfl, rfl⟩

/-- C12: for every position, world-up, yaw and pitch, each constructor yields a
camera whose previous snapshot and initial snapshot (with `FirstPosition`)
equal its current orientation and `Position`, with `Yaw`, `Pitch`, `Position`
and `WorldUp` the arguments, `MovementSpeed = 5/2`, `MouseSensitivity = 1/10`,
`Zoom = 45` and `MouseTriggered = true`; the basis is the one
`updateCameraVectors` computes from the arguments. -/
theorem C12_constructor_snapshots (G : Glm K) (position up : Vec3 K) (yaw pitch : K) :
    ((Camera.new G position up yaw pitch).prevSnapshot
        = (Camera.new G position up yaw pitch).orientation
      ∧ (Camera.new G position up yaw pitch).firstSnapshot
        = (Camera.new G position up yaw pitch).orientation
      ∧ (Camera.new G position up yaw pitch).FirstPosition
        = (Camera.new G position up yaw pitch).Position
      ∧ (Camera.new G position up yaw pitch).Yaw = yaw
      ∧ (Camera.new G position up yaw pitch).Pitch = pitch
      ∧ (Camera.new G position up yaw pitch).Position = position
      ∧ (Camera.new G position up yaw pitch).WorldUp = up
      ∧ (Camera.new G position up yaw pitch).MovementSpeed = 5 / 2
      ∧ (Camera.new G position up yaw pitch).MouseSensitivity = 1 / 10
      ∧ (Camera.new G position up yaw pitch).Zoom = 45
      ∧ (Camera.new G position up yaw pitch).MouseTriggered = true
      ∧ ((Camera.new G position up yaw pitch).Front, (Camera.new G position up yaw pitch).Right,
          (Camera.new G position up yaw pitch).Up)
        = basis G (Camera.new G position up yaw pitch) yaw pitch)
    ∧ (∀ posX posY posZ upX upY upZ : K,
        Camera.newScalars G posX posY posZ upX upY upZ yaw pitch
          = Camera.new G ⟨posX, posY, posZ⟩ ⟨upX, upY, upZ⟩ yaw pitch) :=
  ⟨⟨rfl, rfl, rfl, rfl, rfl, rfl, rfl, rfl, rfl, rfl, rfl, rfl⟩,
    fun _ _ _ _ _ _ => rfl⟩

/-- C13: no public operation changes the initial snapshot (`FirstYaw`,
`FirstPitch`, `FirstFront`, `FirstRight`, `FirstUp`, `FirstPosition`) or
`WorldUp`: not `ProcessKeyboard`, `ProcessMouseMovement` in any mode,
`ProcessMouseScroll`, `loadFirstCameraVectors`, `loadPrevCameraVectors` or
`GetViewMatrix`, for every state and every argument, nor any sequence of them. -/
theorem C13_initial_snapshot_immutable (G : Glm K) (c : Camera K) :
    (∀ (direction : Camera_Movement) (deltaTime : K),
      (ProcessKeyboard c direction deltaTime).fixedPart = c.fixedPart)
    ∧ (∀ (x y : K) (t : Int) (cp : Bool),
      (ProcessMouseMovement G c x y t cp).fixedPart = c.fixedPart)
    ∧ (∀ yoffset : K, (ProcessMouseScroll c yoffset).fixedPart = c.fixedPart)
    ∧ (loadFirstCameraVectors c).fixedPart = c.fixedPart
    ∧ (loadPrevCameraVectors c).fixedPart = c.fixedPart
    ∧ (∀ (M : Type) (lookAt : Vec3 K → Vec3 K → Vec3 K → M),
      (GetViewMatrix lookAt c).2.fixedPart = c.fixedPart)
    ∧ (∀ ops : List (Op K), (run G c ops).fixedPart = c.fixedPart) :=
  ⟨fun d dt => apply_fixedPart G c (Op.keyboard d dt),
    fun x y t cp => apply_fixedPart G c (Op.mouse x y t cp),
    fun y => apply_fixedPart G c (Op.scroll y),
    apply_fixedPart G c Op.loadFirst,
    apply_fixedPart G c Op.loadPrev,
    fun _ _ => rfl,
    fun ops => run_fixedPart G ops c⟩

/-- C14: with look enabled and the pitch constraint on, a look with a `type`
other than 1 and 3 sets `Yaw` to `Yaw + xoffset * MouseSensitivity`, sets
`Pitch` to `Pitch + yoffset * MouseSensitivity` clamped into `[-89, 89]`, sets
`(Front, Right, Up)` to the specification's basis `specBasis` of the new yaw,
the new pitch and `WorldUp`, and leaves the previous snapshot, `Position`,
`Zoom`, the initial snapshot and `WorldUp` unchanged. -/
theorem C14_preview (G : Glm K) (c : Camera K) (x y : K) (t : Int)
    (hm : c.MouseTriggered = true) (h1 : t ≠ 1) (h3 : t ≠ 3) :
    (ProcessMouseMovement G c x y t true).Yaw = c.Yaw + x * c.MouseSensitivity
    ∧ (ProcessMouseMovement G c x y t true).Pitch
        = max (-89) (min 89 (c.Pitch + y * c.MouseSensitivity))
    ∧ (-89 ≤ (ProcessMouseMovement G c x y t true).Pitch
        ∧ (ProcessMouseMovement G c x y t true).Pitch ≤ 89)
    ∧ ((ProcessMouseMovement G c x y t true).Front, (ProcessMouseMovement G c x y t true).Right,
        (ProcessMouseMovement G c x y t true).Up)
        = specBasis G (c.Yaw + x * c.MouseSensitivity)
            (max (-89) (min 89 (c.Pitch + y * c.MouseSensitivity))) c.WorldUp
    ∧ (ProcessMouseMovement G c x y t true).Front
        = normalize G
            ⟨G.cos (G.radians (c.Yaw + x * c.MouseSensitivity))
                * G.cos (G.radians (max (-89) (min 89 (c.Pitch + y * c.MouseSensitivity)))),
              G.sin (G.radians (max (-89) (min 89 (c.Pitch + y * c.MouseSensitivity)))),
              G.sin (G.radians (c.Yaw + x * c.MouseSensitivity))
                * G.cos (G.radians (max (-89) (min 89 (c.Pitch + y * c.MouseSensitivity))))⟩
    ∧ (ProcessMouseMovement G c x y t true).Right
        = normalize G ((ProcessMouseMovement G c x y t true).Front.cross c.WorldUp)
    ∧ (ProcessMouseMovement G c x y t true).Up
        = normalize G ((ProcessMouseMovement G c x y t true).Right.cross
            (ProcessMouseMovement G c x y t true).Front)
    ∧ (ProcessMouseMovement G c x y t true).prevSnapshot = c.prevSnapshot
    ∧ (ProcessMouseMovement G c x y t true).Position = c.Position
    ∧ (ProcessMouseMovement G c x y t true).Zoom = c.Zoom
    ∧ (ProcessMouseMovement G c x y t true).fixedPart = c.fixedPart
    ∧ ProcessMouseMovement G c x y t true
        = { c with
            Yaw := c.Yaw + x * c.MouseSensitivity
            Pitch := max (-89) (min 89 (c.Pitch + y * c.MouseSensitivity))
            Front := (ProcessMouseMovement G c x y t true).Front
            Right := (ProcessMouseMovement G c x y t true).Right
            Up := (ProcessMouseMovement G c x y t true).Up } := by
  have heq : ProcessMouseMovement G c x y t true
      = updateCameraVectors G
          { c with
            Yaw := c.Yaw + x * c.MouseSensitivity
            Pitch := max (-89) (min 89 (c.Pitch + y * c.MouseSensitivity)) } := by
    rw [mouse_update G c x y t true hm h3, if_neg h1, if_pos rfl]
    rfl
  rw [heq]
  exact ⟨rfl, rfl, clamp_bounds _, rfl, rfl, rfl, rfl, rfl, rfl, rfl, rfl, rfl⟩

/-- C14 (witness): a Preview-mode look (`type = 2`) on the default camera over
the reals. -/
theorem C14_preview_witness :
    let G : Glm ℝ :=
      Glm.mk Real.cos Real.sin (fun d => d * (Real.pi / 180)) (fun v => (Real.sqrt v)⁻¹)
    let c : Camera ℝ := Camera.new G ⟨0, 0, 0⟩ ⟨0, 1, 0⟩ YAW PITCH
    (ProcessMouseMovement G c 10 2000 2 true).Yaw = c.Yaw + 10 * c.MouseSensitivity
      ∧ (ProcessMouseMovement G c 10 2000 2 true).Pitch
        = max (-89) (min 89 (c.Pitch + 2000 * c.MouseSensitivity))
      ∧ ((ProcessMouseMovement G c 10 2000 2 true).Front,
          (ProcessMouseMovement G c 10 2000 2 true).Right,
          (ProcessMouseMovement G c 10 2000 2 true).Up)
        = specBasis G (c.Yaw + 10 * c.MouseSensitivity)
            (max (-89) (min 89 (c.Pitch + 2000 * c.MouseSensitivity))) c.WorldUp
      ∧ (ProcessMouseMovement G c 10 2000 2 true).prevSnapshot = c.prevSnapshot := by
  intro G c
  have h := C14_preview G c 10 2000 2 rfl (by decide) (by decide)
  exact ⟨h.1, h.2.1, h.2.2.2.1, h.2.2.2.2.2.2.2.1⟩

/-- C15 (as stated, refuted): a camera constructed with the world-up axis
`(1, 0, 0)`, `yaw = 0` and `pitch = 0` (a pitch inside `[-89, 89]`) has the
computed `Front = (1, 0, 0)`, equal to `WorldUp`; `cross(Front, WorldUp)` is the
zero vector, so the normalisation of `Right` evaluates `inversesqrt` at `0`.
Only `radians 0 = 0`, `cos 0 = 1`, `sin 0 = 0` and `inversesqrt 1 = 1` are used
of the library functions. -/
theorem C15_counterexample :
    let G : Glm ℝ :=
      Glm.mk Real.cos Real.sin (fun d => d * (Real.pi / 180)) (fun v => (Real.sqrt v)⁻¹)
    let c : Camera ℝ := Camera.new G ⟨0, 0, 0⟩ ⟨1, 0, 0⟩ 0 0
    (-89 ≤ c.Pitch ∧ c.Pitch ≤ 89)
      ∧ c.WorldUp = ⟨1, 0, 0⟩
      ∧ c.Front = ⟨1, 0, 0⟩
      ∧ (updateCameraVectors G c).Front = ⟨1, 0, 0⟩
      ∧ (updateCameraVectors G c).Front.cross c.WorldUp = ⟨0, 0, 0⟩
      ∧ ((updateCameraVectors G c).Front.cross c.WorldUp).dot
          ((updateCameraVectors G c).Front.cross c.WorldUp) = 0 := by
  intro G c
  have hr : G.radians 0 = 0 := by simp [G]
  have hc : G.cos 0 = 1 := by simp [G]
  have hs : G.sin 0 = 0 := by simp [G]
  have hi : G.inversesqrt 1 = 1 := by simp [G]
  have hf : (updateCameraVectors G c).Front = ⟨1, 0, 0⟩ :=
    update_front_zero G c hr hc hs hi rfl rfl
  have hf0 : c.Front = ⟨1, 0, 0⟩ := update_front_zero G _ hr hc hs hi rfl rfl
  have hw : c.WorldUp = ⟨1, 0, 0⟩ := rfl
  have hx : (updateCameraVectors G c).Front.cross c.WorldUp = ⟨0, 0, 0⟩ := by
    rw [hf, hw]
    simp [Vec3.cross]
  refine ⟨⟨?_, ?_⟩, hw, hf0, hf, hx, ?_⟩
  · show (-89 : ℝ) ≤ 0
    norm_num
  · show (0 : ℝ) ≤ 89
    norm_num
  · rw [hx]
    simp [Vec3.dot]

/-- C15 (amended): with the world-up axis `(0, 1, 0)`, for every yaw and every
pitch in `[-89, 89]`, the `Front` computed by `updateCameraVectors` is not
parallel to `WorldUp`: `cross(Front, WorldUp)` is not the zero vector and its
squared length, the argument of `inversesqrt` in the normalisation of `Right`,
is positive.  The library functions enter through `Glm.NonVanishing` only. -/
theorem C15_front_not_parallel (G : Glm K) (c : Camera K) (hG : G.NonVanishing)
    (hup : c.WorldUp = ⟨0, 1, 0⟩) (hlo : -89 ≤ c.Pitch) (hhi : c.Pitch ≤ 89) :
    (updateCameraVectors G c).Front.cross c.WorldUp ≠ ⟨0, 0, 0⟩
    ∧ 0 < ((updateCameraVectors G c).Front.cross c.WorldUp).dot
        ((updateCameraVectors G c).Front.cross c.WorldUp) :=
  ⟨Vec3.ne_zero_of_dot_pos _ (update_cross_pos G hG c hup hlo hhi),
    update_cross_pos G hG c hup hlo hhi⟩

/-- C15 (witness): over the reals, a camera with the default world-up axis at
`yaw = 37`, `pitch = 89`. -/
theorem C15_front_not_parallel_witness :
    let G : Glm ℝ :=
      Glm.mk Real.cos Real.sin (fun d => d * (Real.pi / 180)) (fun v => (Real.sqrt v)⁻¹)
    let c : Camera ℝ := Camera.new G ⟨0, 0, 0⟩ ⟨0, 1, 0⟩ 37 89
    G.NonVanishing ∧ c.WorldUp = ⟨0, 1, 0⟩ ∧ (-89 ≤ c.Pitch ∧ c.Pitch ≤ 89)
      ∧ (updateCameraVectors G c).Front.cross c.WorldUp ≠ ⟨0, 0, 0⟩ := by
  intro G c
  have hlo : -89 ≤ c.Pitch := by
    show (-89 : ℝ) ≤ 89
    norm_num
  have hhi : c.Pitch ≤ 89 := le_refl (89 : ℝ)
  exact ⟨real_nonVanishing, rfl, ⟨hlo, hhi⟩,
    (C15_front_not_parallel G c real_nonVanishing rfl hlo hhi).1⟩

/-- C16: in every state reached from either constructor by any sequence of
public calls, each snapshot is self-consistent: `(Front, Right, Up)` is the
specification's basis `specBasis` of `(Yaw, Pitch, WorldUp)`,
`(PrevFront, PrevRight, PrevUp)` that of `(PrevYaw, PrevPitch, WorldUp)` and
`(FirstFront, FirstRight, FirstUp)` that of `(FirstYaw, FirstPitch, WorldUp)`,
with `WorldUp` the constructor's argument. -/
theorem C16_snapshots_self_consistent (G : Glm K) (position up : Vec3 K) (yaw pitch : K)
    (ops : List (Op K)) :
    (((run G (Camera.new G position up yaw pitch) ops).Front,
        (run G (Camera.new G position up yaw pitch) ops).Right,
        (run G (Camera.new G position up yaw pitch) ops).Up)
        = specBasis G (run G (Camera.new G position up yaw pitch) ops).Yaw
            (run G (Camera.new G position up yaw pitch) ops).Pitch up
      ∧ ((run G (Camera.new G position up yaw pitch) ops).PrevFront,
        (run G (Camera.new G position up yaw pitch) ops).PrevRight,
        (run G (Camera.new G position up yaw pitch) ops).PrevUp)
        = specBasis G (run G (Camera.new G position up yaw pitch) ops).PrevYaw
            (run G (Camera.new G position up yaw pitch) ops).PrevPitch up
      ∧ ((run G (Camera.new G position up yaw pitch) ops).FirstFront,
        (run G (Camera.new G position up yaw pitch) ops).FirstRight,
        (run G (Camera.new G position up yaw pitch) ops).FirstUp)
        = specBasis G (run G (Camera.new G position up yaw pitch) ops).FirstYaw
            (run G (Camera.new G position up yaw pitch) ops).FirstPitch up)
    ∧ (run G (Camera.new G position up yaw pitch) ops).WorldUp = up
    ∧ SelfConsistent G (run G
        (Camera.newScalars G position.x position.y position.z up.x up.y up.z yaw pitch) ops) := by
  have h := run_selfConsistent G ops _ (new_selfConsistent G position up yaw pitch)
  have hw : (run G (Camera.new G position up yaw pitch) ops).WorldUp = up :=
    congrArg (fun q => q.2.2) (run_fixedPart G ops (Camera.new G position up yaw pitch))
  refine ⟨?_, hw, h⟩
  have h' := h
  simp only [SelfConsistent, hw] at h'
  exact h'

/-- C17: with look enabled, a Revert-mode look (`type = 3`) gives the same
state for any two pairs of deltas (and any `constrainPitch`): the state with
`Yaw`, `Pitch`, `Front`, `Up`, `Right` overwritten from the previous snapshot
and every other data member unchanged; a second Revert-mode look changes
nothing more. -/
theorem C17_revert_ignores_deltas (G : Glm K) (c : Camera K) (x y x' y' : K) (cp cp' : Bool)
    (hm : c.MouseTriggered = true) :
    ProcessMouseMovement G c x y 3 cp = ProcessMouseMovement G c x' y' 3 cp'
    ∧ ProcessMouseMovement G c x y 3 cp
        = { c with
            Yaw := c.PrevYaw
            Pitch := c.PrevPitch
            Front := c.PrevFront
            Up := c.PrevUp
            Right := c.PrevRight }
    ∧ ProcessMouseMovement G (ProcessMouseMovement G c x y 3 cp) x' y' 3 cp'
        = ProcessMouseMovement G c x y 3 cp := by
  have h : ∀ (a b : K) (f : Bool), ProcessMouseMovement G c a b 3 f = loadPrevCameraVectors c :=
    fun a b f => mouse_revert G c a b f hm
  refine ⟨by rw [h, h], by rw [h]; rfl, ?_⟩
  rw [h, mouse_revert G (loadPrevCameraVectors c) x' y' cp' hm]
  rfl

/-- C17 (witness): Revert after a Preview-mode look on the default camera over
the reals, with two different pairs of deltas. -/
theorem C17_revert_ignores_deltas_witness :
    let G : Glm ℝ :=
      Glm.mk Real.cos Real.sin (fun d => d * (Real.pi / 180)) (fun v => (Real.sqrt v)⁻¹)
    let c : Camera ℝ :=
      ProcessMouseMovement G (Camera.new G ⟨0, 0, 0⟩ ⟨0, 1, 0⟩ YAW PITCH) 10 20 2 true
    ProcessMouseMovement G c 0 0 3 true = ProcessMouseMovement G c 700 (-50) 3 false
      ∧ ProcessMouseMovement G (ProcessMouseMovement G c 0 0 3 true) 700 (-50) 3 false
        = ProcessMouseMovement G c 0 0 3 true := by
  intro G c
  have hm : c.MouseTriggered = true := by
    simp only [c, mouse_MouseTriggered]
    rfl
  have h := C17_revert_ignores_deltas G c 0 0 700 (-50) true false hm
  exact ⟨h.1, h.2.2⟩

/-- C18: for a camera constructed (by either constructor) with `pitch` in
`[-89, 89]`, every state reached by any sequence of `ProcessKeyboard`,
`ProcessMouseMovement` (any mode, `constrainPitch = true`),
`ProcessMouseScroll`, `loadFirstCameraVectors` and `loadPrevCameraVectors`
calls has `Pitch`, `PrevPitch` and `FirstPitch` all in `[-89, 89]`. -/
theorem C18_reachable_pitch (G : Glm K) (position up : Vec3 K) (yaw pitch : K)
    (ops : List (Op K)) (hlo : -89 ≤ pitch) (hhi : pitch ≤ 89)
    (hops : ∀ o ∈ ops, o.constrained = true) :
    ((-89 ≤ (run G (Camera.new G position up yaw pitch) ops).Pitch
        ∧ (run G (Camera.new G position up yaw pitch) ops).Pitch ≤ 89)
      ∧ (-89 ≤ (run G (Camera.new G position up yaw pitch) ops).PrevPitch
        ∧ (run G (Camera.new G position up yaw pitch) ops).PrevPitch ≤ 89)
      ∧ (-89 ≤ (run G (Camera.new G position up yaw pitch) ops).FirstPitch
        ∧ (run G (Camera.new G position up yaw pitch) ops).FirstPitch ≤ 89))
    ∧ PitchInv (run G
        (Camera.newScalars G position.x position.y position.z up.x up.y up.z yaw pitch) ops) :=
  ⟨run_pitchInv G ops _ hops (new_pitchInv G position up yaw pitch hlo hhi),
    run_pitchInv G ops _ hops (new_pitchInv G position up yaw pitch hlo hhi)⟩

/-- C18 (witness): a camera constructed over the reals with `pitch = 30`, after
a movement, a Preview-mode look, a Commit-mode look, a zoom,
`loadFirstCameraVectors` and a Revert-mode look. -/
theorem C18_reachable_pitch_witness :
    let G : Glm ℝ :=
      Glm.mk Real.cos Real.sin (fun d => d * (Real.pi / 180)) (fun v => (Real.sqrt v)⁻¹)
    let c : Camera ℝ :=
      run G (Camera.new G ⟨1, 2, 3⟩ ⟨0, 1, 0⟩ 200 30)
        [Op.keyboard Camera_Movement.LEFT 2, Op.mouse 4 9000 2 true, Op.mouse 4 (-9000) 1 true,
          Op.scroll 7, Op.loadFirst, Op.mouse 0 0 3 true]
    ((-89 : ℝ) ≤ 30 ∧ (30 : ℝ) ≤ 89)
      ∧ (-89 ≤ c.Pitch ∧ c.Pitch ≤ 89) ∧ (-89 ≤ c.PrevPitch ∧ c.PrevPitch ≤ 89)
      ∧ (-89 ≤ c.FirstPitch ∧ c.FirstPitch ≤ 89) := by
  intro G c
  exact ⟨⟨by norm_num, by norm_num⟩,
    (C18_reachable_pitch G ⟨1, 2, 3⟩ ⟨0, 1, 0⟩ 200 30 _ (by norm_num) (by norm_num)
      (by simp [Op.constrained])).1⟩

end Claims

end MyFPS
